import Mathlib

/-!
Verification of the go-gpt3 HTTP client (`api.go`): the request dispatcher's
status classification and error decoding (`sendRequest`), and the streaming
response decoder (`sendStreamRequest`) that reads an SSE-style body line by
line, filters data frames, detects the `[DONE]` sentinel, accumulates the
first choice's text across frames and reports each update to a callback.

The Go code is embedded shallowly:
  * `bytes.TrimSpace`, `bytes.HasPrefix`, `bytes.TrimPrefix` become
    executable char-list operations on `String` (`trimSpace`, `hasPfx`,
    `trimPfx`);
  * the external JSON library (`goccy/go-json`) is a parameter: unmarshalling
    a frame into the current accumulated value is a function
    `String → CompletionResponse → Except String CompletionResponse`, and
    decoding an error body is `_ → Option ErrorResponse`;
  * the response body handed to the streaming loop is the sequence of
    newline-terminated reads `bufio.Reader.ReadBytes` returns; once they are
    exhausted the next read fails with `io.EOF` (message "EOF");
  * Go `error` values produced by `api.go` become the inductive `GoError`,
    whose `message` function renders the exact `fmt.Errorf` strings;
  * `onData` callback invocations are recorded as the list `events` of the
    arguments passed, in call order.
-/

namespace GoGpt

/-! ## Data model -/

/-- Modelled from the spec: a choice entry of a Completion Result "carries a
growing text field".  The Go struct (`CompletionChoice` in `completion.go`)
lives outside the sources available here; only its `Text` field is used by
`api.go`. -/
structure CompletionChoice where
  text : String
deriving Repr, DecidableEq

/-- Modelled from the spec: a Completion Result is "a value with a list of
ordered choice entries".  The Go struct (`CompletionResponse` in
`completion.go`) lives outside the sources available here; only its `Choices`
field is used by `api.go`. -/
structure CompletionResponse where
  choices : List CompletionChoice
deriving Repr, DecidableEq

/-- Modelled from the spec: the nested error object of a Structured Error,
with "at least a human-readable message field" (`APIError` in `error.go`,
outside the sources available here). -/
structure APIError where
  message : String
deriving Repr, DecidableEq

/-- Modelled from the spec: the structured error envelope; the nested error
object "may be absent" (`ErrorResponse` in `error.go`, outside the sources
available here). -/
structure ErrorResponse where
  error : Option APIError
deriving Repr, DecidableEq

/-- The zero value `CompletionResponse{}` (api.go line 138): no choices. -/
def zeroResponse : CompletionResponse := ⟨[]⟩

/-- Go `error` values produced by `api.go`, one constructor per `return err`
site: HTTP-status errors without / with a service message (lines 84, 86, 130,
133), a unary JSON decode failure propagated as-is (line 91), a failed
`ReadBytes` call propagated as-is (line 146), and a streaming frame decode
failure wrapped by `fmt.Errorf` (line 166). -/
inductive GoError where
  | statusOnly (code : Nat)
  | statusMsg (code : Nat) (msg : String)
  | unaryDecodeErr (msg : String)
  | readErr (msg : String)
  | invalidStreamData (msg : String)
deriving Repr, DecidableEq

/-- The string each `GoError` renders to, following the `fmt.Errorf` format
strings in `api.go` exactly. -/
def GoError.message : GoError → String
  | .statusOnly code => "error, status code: " ++ toString code
  | .statusMsg code msg => "error, status code: " ++ toString code ++ ", message: " ++ msg
  | .unaryDecodeErr msg => msg
  | .readErr msg => msg
  | .invalidStreamData msg => "invalid json stream data: " ++ msg

/-- Whether an error is one of the two HTTP-status errors. -/
def GoError.isStatus : GoError → Bool
  | .statusOnly _ => true
  | .statusMsg _ _ => true
  | _ => false

/-! ## Byte-string operations (`bytes` package) -/

/-- `unicode.IsSpace` restricted to the ASCII whitespace characters, which is
what `bytes.TrimSpace` tests on ASCII input (the only input the decoder's
fixed tokens involve). -/
def isSpaceChar (c : Char) : Bool :=
  c = ' ' || c = '\t' || c = '\n' || c = '\r' || c = '\x0b' || c = '\x0c'

/-- Drop leading whitespace characters. -/
def dropLeading : List Char → List Char
  | [] => []
  | c :: cs => if isSpaceChar c then dropLeading cs else c :: cs

/-- `bytes.TrimSpace`: strip leading and trailing whitespace. -/
def trimSpace (s : String) : String :=
  String.mk (List.reverse (dropLeading (List.reverse (dropLeading s.data))))

/-- `bytes.HasPrefix s pre`. -/
def hasPfx (s pre : String) : Bool :=
  pre.data.isPrefixOf s.data

/-- `bytes.TrimPrefix s pre`: remove `pre` from the front of `s` when present,
otherwise return `s` unchanged. -/
def trimPfx (s pre : String) : String :=
  if hasPfx s pre then String.mk (s.data.drop pre.data.length) else s

/-! ## Constants (api.go lines 13, 98-101) -/

/-- `http.StatusOK`. -/
def httpStatusOK : Nat := 200

/-- `http.StatusBadRequest`. -/
def httpStatusBadRequest : Nat := 400

/-- `dataPrefix = []byte("data: ")` (api.go line 99). -/
def dataPrefix : String := "data: "

/-- `doneSequence = []byte("[DONE]")` (api.go line 100). -/
def doneSequence : String := "[DONE]"

/-! ## Error decoding and `sendRequest` (api.go lines 58-96) -/

/-- The failing-status branch shared by `sendRequest` (lines 81-86) and
`sendStreamRequest` (lines 127-133): try to decode the body as an
`ErrorResponse`; if decoding fails or the nested error object is absent,
return the status-only error, otherwise the error carrying the service
message.  `parse` stands for `json.NewDecoder(res.Body).Decode(&errRes)`,
returning `none` on a decode failure; `body` is the unread response body. -/
def decodeErrorResponse {α : Type} (parse : α → Option ErrorResponse)
    (code : Nat) (body : α) : GoError :=
  match parse body with
  | none => .statusOnly code
  | some errRes =>
    match errRes.error with
    | none => .statusOnly code
    | some e => .statusMsg code e.message

/-- `sendRequest` after the transport call returned a response (api.go lines
80-95).  `parse` decodes the body as an error envelope; `dec` is
`json.NewDecoder(res.Body).Decode(&v)` for the caller's destination `v`, with
`none` meaning `v == nil` was passed; the result is the returned Go `error`
(`none` = `nil`). -/
def sendRequest (parse : String → Option ErrorResponse)
    (dec : Option (String → Except String Unit))
    (statusCode : Nat) (body : String) : Option GoError :=
  if statusCode < httpStatusOK ∨ httpStatusBadRequest ≤ statusCode then
    some (decodeErrorResponse parse statusCode body)
  else
    match dec with
    | none => none
    | some d =>
      match d body with
      | .error msg => some (.unaryDecodeErr msg)
      | .ok _ => none

/-! ## The streaming decoder (api.go lines 103-178) -/

/-- How one line read from the body is treated by the loop body (api.go lines
148-159): trim it; a line without the data tag is skipped (`continue`, line
152); otherwise the tag is stripped and the rest trimmed, and a payload
beginning with the `[DONE]` token stops the loop (`break`, line 158); any
other payload is a data frame to decode. -/
inductive LineClass where
  | skip
  | done
  | frame (payload : String)
deriving Repr, DecidableEq

/-- The decision sequence of api.go lines 149-159 applied to one line. -/
def classifyLine (l : String) : LineClass :=
  let t := trimSpace l
  if hasPfx t dataPrefix then
    let p := trimSpace (trimPfx t dataPrefix)
    if hasPfx p doneSequence then .done else .frame p
  else .skip

/-- What `sendStreamRequest` produces: the named return `output`, the list of
arguments `onData` was called with (in call order), and the named return
`err` (`none` = `nil`). -/
structure StreamResult where
  output : CompletionResponse
  events : List CompletionResponse
  error : Option GoError
deriving Repr, DecidableEq

/-- `output.Choices[0].Text` when there is a choice (read under a
`len(output.Choices) > 0` guard in the source). -/
def firstText (r : CompletionResponse) : String :=
  match r.choices with
  | [] => ""
  | c :: _ => c.text

/-- `output.Choices[0].Text = s` (performed under a `len > 0` guard). -/
def setFirstText (r : CompletionResponse) (s : String) : CompletionResponse :=
  match r.choices with
  | [] => r
  | c :: cs => ⟨{ c with text := s } :: cs⟩

/-- The streaming loop of api.go lines 143-175.  `u` is
`json.Unmarshal(line, &output)`: unmarshalling the payload into the current
accumulated value, returning the updated value, or the JSON library's error
message on a payload that is not valid JSON (in which case the accumulated
value is untouched — `encoding/json`-compatible unmarshalling validates the
document before writing anything).  `lines` are the successive successful
`ReadBytes('\n')` results; when they run out the next read fails with
`io.EOF` and the loop returns the error (line 146). -/
def streamLoop (u : String → CompletionResponse → Except String CompletionResponse) :
    List String → CompletionResponse → String → StreamResult
  | [], output, _ => ⟨output, [], some (.readErr "EOF")⟩
  | l :: rest, output, prevText =>
    match classifyLine l with
    | .skip => streamLoop u rest output prevText
    | .done => ⟨output, [], none⟩
    | .frame payload =>
      let prev2 := if output.choices.length > 0 then firstText output else prevText
      match u payload output with
      | .error msg => ⟨output, [], some (.invalidStreamData msg)⟩
      | .ok out1 =>
        let out2 := if out1.choices.length > 0 then setFirstText out1 (prev2 ++ firstText out1) else out1
        let r := streamLoop u rest out2 prev2
        ⟨r.output, out2 :: r.events, r.error⟩

/-- `sendStreamRequest` after the transport call returned a response (api.go
lines 126-177): a failing status is decoded exactly as in `sendRequest` and
returned with the zero-value `output`; otherwise the body is consumed by the
streaming loop starting from `CompletionResponse{}` and an empty `prevText`. -/
def sendStreamRequest (parse : List String → Option ErrorResponse)
    (u : String → CompletionResponse → Except String CompletionResponse)
    (statusCode : Nat) (body : List String) : StreamResult :=
  if statusCode < httpStatusOK ∨ httpStatusBadRequest ≤ statusCode then
    ⟨zeroResponse, [], some (decodeErrorResponse parse statusCode body)⟩
  else
    streamLoop u body zeroResponse ""

/-! ## Derived notions used by the statements -/

/-- Concatenation of a list of text fragments, in order. -/
def concatAll : List String → String
  | [] => ""
  | s :: rest => s ++ concatAll rest

/-- The cumulative concatenations seen by the callback when the text
accumulated so far is `acc`: one entry per fragment, each extending the
previous one by that fragment. -/
def cumTexts (acc : String) : List String → List String
  | [] => []
  | f :: fs => (acc ++ f) :: cumTexts (acc ++ f) fs

/-- The text carried into the next frame: `prevText` after the update of
api.go lines 161-163 (the first choice's text when there is a choice,
otherwise the previous carried value). -/
def carried (out : CompletionResponse) (prev : String) : String :=
  if out.choices.length > 0 then firstText out else prev

/-- `u` decodes payload `p` successfully against any accumulated value,
always yielding at least one choice whose first text is the fragment `frag`
(the behaviour `json.Unmarshal` has on a well-formed data frame whose JSON
carries `choices[0].text`: the frame's own text overwrites the slot). -/
def goodDecode (u : String → CompletionResponse → Except String CompletionResponse)
    (p frag : String) : Prop :=
  ∀ out, ∃ r, u p out = Except.ok r ∧ r.choices ≠ [] ∧ firstText r = frag

/-- Whether a line class is the skipped one. -/
def isSkip : LineClass → Bool
  | .skip => true
  | _ => false

/-- The lines the filter step does not discard. -/
def dropSkips (ls : List String) : List String :=
  ls.filter (fun l => ! isSkip (classifyLine l))

/-! ## Concrete instances used by the witnesses -/

/-- A concrete frame unmarshaller realising the spec's concrete scenario:
payload `one` decodes to a single choice with text `Hello`, payload `two` to a
single choice with text `, world`, and any other payload fails the way invalid
JSON does. -/
def uTest : String → CompletionResponse → Except String CompletionResponse
  | "one", _ => .ok ⟨[⟨"Hello"⟩]⟩
  | "two", _ => .ok ⟨[⟨", world"⟩]⟩
  | _, _ => .error "unexpected end of JSON input"

/-- A concrete error-body parse: the body decodes to an envelope whose nested
error object carries the message `rate limited`. -/
def parseRateLimited {α : Type} : α → Option ErrorResponse :=
  fun _ => some ⟨some ⟨"rate limited"⟩⟩

/-- A concrete error-body parse that always fails (an empty or unparsable
body). -/
def parseFails {α : Type} : α → Option ErrorResponse :=
  fun _ => none

/-! ## Basic lemmas -/

lemma concatAll_cons (s : String) (rest : List String) :
    concatAll (s :: rest) = s ++ concatAll rest := rfl

lemma cumTexts_length (fs : List String) : ∀ acc, (cumTexts acc fs).length = fs.length := by
  induction fs with
  | nil => intro acc; rfl
  | cons f fs ih => intro acc; simp [cumTexts, ih]

lemma cumTexts_get (fs : List String) : ∀ (acc : String) (k : Nat)
    (hk : k < (cumTexts acc fs).length),
    (cumTexts acc fs).get ⟨k, hk⟩ = acc ++ concatAll (fs.take (k + 1)) := by
  induction fs with
  | nil => intro acc k hk; simp [cumTexts] at hk
  | cons f fs ih =>
    intro acc k hk
    match k with
    | 0 => simp [cumTexts, concatAll, String.append_empty, String.append_assoc]
    | k + 1 =>
      have hk' : k < (cumTexts (acc ++ f) fs).length := by
        simpa [cumTexts] using hk
      show (cumTexts (acc ++ f) fs).get ⟨k, hk'⟩ = _
      rw [ih (acc ++ f) k hk']
      simp [concatAll, String.append_assoc]

lemma firstText_setFirstText (r : CompletionResponse) (h : r.choices ≠ []) (s : String) :
    firstText (setFirstText r s) = s := by
  cases r with
  | mk cs =>
    cases cs with
    | nil => exact absurd rfl h
    | cons c cs => simp [setFirstText, firstText]

lemma choices_setFirstText_ne (r : CompletionResponse) (h : r.choices ≠ []) (s : String) :
    (setFirstText r s).choices ≠ [] := by
  cases r with
  | mk cs =>
    cases cs with
    | nil => exact absurd rfl h
    | cons c cs => simp [setFirstText]

lemma carried_of_ne (out : CompletionResponse) (prev : String) (h : out.choices ≠ []) :
    carried out prev = firstText out := by
  unfold carried
  rw [if_pos (List.length_pos.mpr h)]

lemma carried_zero (prev : String) : carried zeroResponse prev = prev := rfl

/-! ## Unfolding lemmas for one loop iteration -/

lemma streamLoop_nil (u : String → CompletionResponse → Except String CompletionResponse)
    (out : CompletionResponse) (prev : String) :
    streamLoop u [] out prev = ⟨out, [], some (.readErr "EOF")⟩ := rfl

lemma streamLoop_skip (u : String → CompletionResponse → Except String CompletionResponse)
    (l : String) (rest : List String) (out : CompletionResponse) (prev : String)
    (h : classifyLine l = .skip) :
    streamLoop u (l :: rest) out prev = streamLoop u rest out prev := by
  simp [streamLoop, h]

lemma streamLoop_done (u : String → CompletionResponse → Except String CompletionResponse)
    (l : String) (rest : List String) (out : CompletionResponse) (prev : String)
    (h : classifyLine l = .done) :
    streamLoop u (l :: rest) out prev = ⟨out, [], none⟩ := by
  simp [streamLoop, h]

lemma streamLoop_frame_err (u : String → CompletionResponse → Except String CompletionResponse)
    (l : String) (rest : List String) (out : CompletionResponse) (prev : String)
    (p m : String) (hc : classifyLine l = .frame p) (hu : u p out = .error m) :
    streamLoop u (l :: rest) out prev = ⟨out, [], some (.invalidStreamData m)⟩ := by
  simp [streamLoop, hc, hu]

lemma streamLoop_frame_ok (u : String → CompletionResponse → Except String CompletionResponse)
    (l : String) (rest : List String) (out : CompletionResponse) (prev : String)
    (p : String) (r : CompletionResponse)
    (hc : classifyLine l = .frame p) (hu : u p out = .ok r) (hr : r.choices ≠ []) :
    streamLoop u (l :: rest) out prev =
      ⟨(streamLoop u rest (setFirstText r (carried out prev ++ firstText r)) (carried out prev)).output,
       setFirstText r (carried out prev ++ firstText r) ::
         (streamLoop u rest (setFirstText r (carried out prev ++ firstText r)) (carried out prev)).events,
       (streamLoop u rest (setFirstText r (carried out prev ++ firstText r)) (carried out prev)).error⟩ := by
  simp only [streamLoop, hc, hu, carried]
  rw [if_pos (List.length_pos.mpr hr)]

/-! ## Line classification inversions -/

lemma classify_skip_iff (l : String) :
    classifyLine l = .skip ↔ hasPfx (trimSpace l) dataPrefix = false := by
  unfold classifyLine
  cases h1 : hasPfx (trimSpace l) dataPrefix with
  | false => simp [h1]
  | true =>
    cases h2 : hasPfx (trimSpace (trimPfx (trimSpace l) dataPrefix)) doneSequence with
    | false => simp [h1, h2]
    | true => simp [h1, h2]

lemma classify_done_iff (l : String) :
    classifyLine l = .done ↔
      hasPfx (trimSpace l) dataPrefix = true ∧
        hasPfx (trimSpace (trimPfx (trimSpace l) dataPrefix)) doneSequence = true := by
  unfold classifyLine
  cases h1 : hasPfx (trimSpace l) dataPrefix with
  | false => simp [h1]
  | true =>
    cases h2 : hasPfx (trimSpace (trimPfx (trimSpace l) dataPrefix)) doneSequence with
    | false => simp [h1, h2]
    | true => simp [h1, h2]

lemma classify_frame_of (l : String)
    (h1 : hasPfx (trimSpace l) dataPrefix = true)
    (h2 : hasPfx (trimSpace (trimPfx (trimSpace l) dataPrefix)) doneSequence = false) :
    classifyLine l = .frame (trimSpace (trimPfx (trimSpace l) dataPrefix)) := by
  simp [classifyLine, h1, h2]

/-! ## Skip lines are invisible to the loop -/

lemma dropSkips_cons_skip (l : String) (ls : List String) (h : classifyLine l = .skip) :
    dropSkips (l :: ls) = dropSkips ls := by
  simp [dropSkips, List.filter, h, isSkip]

lemma dropSkips_cons_of_ne (l : String) (ls : List String)
    (h : isSkip (classifyLine l) = false) :
    dropSkips (l :: ls) = l :: dropSkips ls := by
  simp [dropSkips, List.filter, h]

lemma dropSkips_append (xs ys : List String) :
    dropSkips (xs ++ ys) = dropSkips xs ++ dropSkips ys := by
  simp [dropSkips, List.filter_append]

lemma streamLoop_dropSkips (u : String → CompletionResponse → Except String CompletionResponse) :
    ∀ (ls : List String) (out : CompletionResponse) (prev : String),
      streamLoop u (dropSkips ls) out prev = streamLoop u ls out prev := by
  intro ls
  induction ls with
  | nil => intro out prev; rfl
  | cons l ls ih =>
    intro out prev
    cases h : classifyLine l with
    | skip =>
      rw [dropSkips_cons_skip l ls h, streamLoop_skip u l ls out prev h, ih]
    | done =>
      rw [dropSkips_cons_of_ne l ls (by simp [isSkip, h]),
        streamLoop_done u l (dropSkips ls) out prev h, streamLoop_done u l ls out prev h]
    | frame p =>
      rw [dropSkips_cons_of_ne l ls (by simp [isSkip, h])]
      cases hu : u p out with
      | error m =>
        rw [streamLoop_frame_err u l (dropSkips ls) out prev p m h hu,
          streamLoop_frame_err u l ls out prev p m h hu]
      | ok r =>
        simp only [streamLoop, h, hu]
        rw [ih]

/-! ## The accumulation lemma: a block of well-formed data frames -/

lemma streamLoop_frames (u : String → CompletionResponse → Except String CompletionResponse) :
    ∀ {ls ps : List String},
      List.Forall₂ (fun l p => classifyLine l = LineClass.frame p) ls ps →
      ∀ {frags : List String}, List.Forall₂ (goodDecode u) ps frags →
      ∀ (rest : List String) (out : CompletionResponse) (prev : String),
      ∃ (out2 : CompletionResponse) (prev2 : String) (evs : List CompletionResponse),
        streamLoop u (ls ++ rest) out prev =
          ⟨(streamLoop u rest out2 prev2).output,
           evs ++ (streamLoop u rest out2 prev2).events,
           (streamLoop u rest out2 prev2).error⟩ ∧
        evs.map firstText = cumTexts (carried out prev) frags ∧
        evs.length = frags.length ∧
        carried out2 prev2 = carried out prev ++ concatAll frags ∧
        (ps = [] → out2 = out ∧ prev2 = prev) ∧
        (ps ≠ [] → out2.choices ≠ []) := by
  intro ls ps hclass
  induction hclass with
  | nil =>
    intro frags hdec rest out prev
    cases hdec
    refine ⟨out, prev, [], ?_, ?_, rfl, ?_, fun _ => ⟨rfl, rfl⟩, fun h => absurd rfl h⟩
    · simp
    · simp [cumTexts]
    · simp [concatAll, String.append_empty]
  | @cons l p ls' ps' hlp hcl ih =>
    intro frags hdec rest out prev
    cases hdec with
    | cons hgd hdec' =>
      rename_i f frags'
      obtain ⟨r, hur, hrne, hfrag⟩ := hgd out
      obtain ⟨out2, prev2, evs, heq, hmap, hlen, hcar, hnil, hne⟩ :=
        ih hdec' rest (setFirstText r (carried out prev ++ firstText r)) (carried out prev)
      have hone : (setFirstText r (carried out prev ++ firstText r)).choices ≠ [] :=
        choices_setFirstText_ne r hrne _
      have hcar1 : carried (setFirstText r (carried out prev ++ firstText r)) (carried out prev)
          = carried out prev ++ f := by
        rw [carried_of_ne _ _ hone, firstText_setFirstText r hrne, hfrag]
      refine ⟨out2, prev2, setFirstText r (carried out prev ++ firstText r) :: evs,
        ?_, ?_, ?_, ?_, ?_, ?_⟩
      · rw [List.cons_append, streamLoop_frame_ok u l (ls' ++ rest) out prev p r hlp hur hrne,
          heq]
        rfl
      · simp only [List.map_cons, hmap, hcar1, cumTexts]
        rw [firstText_setFirstText r hrne, hfrag]
      · simp [hlen]
      · rw [hcar, hcar1, concatAll_cons, String.append_assoc]
      · intro hps; exact absurd hps (by simp)
      · intro _
        by_cases hps : ps' = []
        · obtain ⟨ho, _⟩ := hnil hps
          rw [ho]; exact hone
        · exact hne hps

/-- A body whose lines never reach the sentinel check positively and whose
frames all decode ends in the `io.EOF` read error. -/
lemma streamLoop_no_done_eof (u : String → CompletionResponse → Except String CompletionResponse) :
    ∀ (ls : List String) (out : CompletionResponse) (prev : String),
      (∀ l ∈ ls, classifyLine l ≠ .done) →
      (∀ l p, l ∈ ls → classifyLine l = .frame p → ∀ o, ∃ r, u p o = Except.ok r) →
      (streamLoop u ls out prev).error = some (.readErr "EOF") := by
  intro ls
  induction ls with
  | nil => intro out prev _ _; rfl
  | cons l ls ih =>
    intro out prev hnd hok
    cases h : classifyLine l with
    | skip =>
      rw [streamLoop_skip u l ls out prev h]
      exact ih out prev (fun x hx => hnd x (List.mem_cons_of_mem l hx))
        (fun x p hx => hok x p (List.mem_cons_of_mem l hx))
    | done => exact absurd h (hnd l (List.mem_cons_self l ls))
    | frame p =>
      obtain ⟨r, hur⟩ := hok l p (List.mem_cons_self l ls) h out
      simp only [streamLoop, h, hur]
      exact ih _ _ (fun x hx => hnd x (List.mem_cons_of_mem l hx))
        (fun x q hx => hok x q (List.mem_cons_of_mem l hx))

/-- No error produced inside the loop is an HTTP-status error. -/
lemma streamLoop_error_not_status
    (u : String → CompletionResponse → Except String CompletionResponse) :
    ∀ (ls : List String) (out : CompletionResponse) (prev : String) (e : GoError),
      (streamLoop u ls out prev).error = some e → e.isStatus = false := by
  intro ls
  induction ls with
  | nil =>
    intro out prev e he
    rw [streamLoop_nil] at he
    injection he with h
    rw [← h]
    rfl
  | cons l ls ih =>
    intro out prev e he
    cases h : classifyLine l with
    | skip =>
      rw [streamLoop_skip u l ls out prev h] at he
      exact ih out prev e he
    | done =>
      rw [streamLoop_done u l ls out prev h] at he
      cases he
    | frame p =>
      cases hu : u p out with
      | error m =>
        rw [streamLoop_frame_err u l ls out prev p m h hu] at he
        injection he with h2
        rw [← h2]
        rfl
      | ok r =>
        simp only [streamLoop, h, hu] at he
        exact ih _ _ e he

/-- Reading one entry of a callback trace whose texts are the cumulative
concatenations. -/
lemma get_of_map_eq_cumTexts (evs : List CompletionResponse) (frags : List String)
    (acc : String) (h : evs.map firstText = cumTexts acc frags)
    (k : Nat) (hk : k < evs.length) :
    firstText (evs.get ⟨k, hk⟩) = acc ++ concatAll (frags.take (k + 1)) := by
  have hk2 : k < (cumTexts acc frags).length := by
    rw [← h, List.length_map]
    exact hk
  rw [← cumTexts_get frags acc k hk2]
  revert hk2
  rw [← h]
  intro hk2
  simp [List.get_eq_getElem, List.getElem_map]

/-- The text of the final accumulated value after a block of frames starting
from the zero value. -/
lemma final_firstText (ps frags : List String) (out2 : CompletionResponse) (prev2 : String)
    (hlen2 : ps.length = frags.length)
    (hcar : carried out2 prev2 = carried zeroResponse "" ++ concatAll frags)
    (hnil : ps = [] → out2 = zeroResponse ∧ prev2 = "")
    (hne : ps ≠ [] → out2.choices ≠ []) :
    firstText out2 = concatAll frags := by
  by_cases hps : ps = []
  · obtain ⟨ho, _⟩ := hnil hps
    have hf : frags = [] := List.eq_nil_of_length_eq_zero (by rw [← hlen2, hps]; rfl)
    rw [ho, hf]
    rfl
  · rw [← carried_of_ne out2 prev2 (hne hps), hcar, carried_zero, String.empty_append]

/-! ## The claims -/

/-- C1: For every streamed body consisting of a sequence of N well-formed data
frames followed by the sentinel line, the `CompletionResponse` returned by
`sendStreamRequest` has, for its first choice, text equal to the
concatenation, in arrival order, of the first-choice text fragments of all N
frames. -/
theorem stream_concat_ok
    (parse : List String → Option ErrorResponse)
    (u : String → CompletionResponse → Except String CompletionResponse)
    (code : Nat) (hc1 : httpStatusOK ≤ code) (hc2 : code < httpStatusBadRequest)
    (ls ps frags : List String) (dl : String)
    (hclass : List.Forall₂ (fun l p => classifyLine l = LineClass.frame p) ls ps)
    (hdec : List.Forall₂ (goodDecode u) ps frags)
    (hdone : classifyLine dl = LineClass.done) :
    (sendStreamRequest parse u code (ls ++ [dl])).error = none ∧
      firstText (sendStreamRequest parse u code (ls ++ [dl])).output = concatAll frags := by
  have hcond : ¬ (code < httpStatusOK ∨ httpStatusBadRequest ≤ code) := fun h =>
    h.elim (fun h1 => absurd hc1 (not_le.mpr h1)) (fun h2 => absurd hc2 (not_lt.mpr h2))
  unfold sendStreamRequest
  rw [if_neg hcond]
  obtain ⟨out2, prev2, evs, heq, hmap, hlen, hcar, hnil, hne⟩ :=
    streamLoop_frames u hclass hdec [dl] zeroResponse ""
  rw [heq, streamLoop_done u dl [] out2 prev2 hdone]
  refine ⟨rfl, ?_⟩
  show firstText out2 = concatAll frags
  by_cases hps : ps = []
  · obtain ⟨ho, _⟩ := hnil hps
    have hf : frags = [] := by
      have := hdec.length_eq
      rw [hps] at this
      exact List.eq_nil_of_length_eq_zero this.symm
    rw [ho, hf]
    rfl
  · rw [← carried_of_ne out2 prev2 (hne hps), hcar, carried_zero, String.empty_append]

/-- Witness for C1: the spec's concrete scenario, two frames then the
sentinel, ends without error and with final text `Hello, world`. -/
theorem stream_concat_ok_witness :
    (sendStreamRequest (fun _ => none) uTest 200
        ["data: one", "data: two", "data: [DONE]"]).error = none ∧
      firstText (sendStreamRequest (fun _ => none) uTest 200
        ["data: one", "data: two", "data: [DONE]"]).output = concatAll ["Hello", ", world"] :=
  stream_concat_ok (fun _ => none) uTest 200 (by decide) (by decide)
    ["data: one", "data: two"] ["one", "two"] ["Hello", ", world"] "data: [DONE]"
    (List.Forall₂.cons (by decide) (List.Forall₂.cons (by decide) List.Forall₂.nil))
    (List.Forall₂.cons (fun _ => ⟨⟨[⟨"Hello"⟩]⟩, rfl, by decide, rfl⟩)
      (List.Forall₂.cons (fun _ => ⟨⟨[⟨", world"⟩]⟩, rfl, by decide, rfl⟩) List.Forall₂.nil))
    (by decide)

/-- C2: For every stream containing a data frame whose payload is not valid
JSON, `sendStreamRequest` aborts at that frame and returns an error, and the
returned `CompletionResponse` reflects only the frames strictly before the
malformed one — no part of the malformed frame is merged into the accumulated
result. -/
theorem stream_decode_error_keeps_prior
    (parse : List String → Option ErrorResponse)
    (u : String → CompletionResponse → Except String CompletionResponse)
    (code : Nat) (hc1 : httpStatusOK ≤ code) (hc2 : code < httpStatusBadRequest)
    (ls ps frags : List String) (bad q : String) (rest : List String)
    (hclass : List.Forall₂ (fun l p => classifyLine l = LineClass.frame p) (dropSkips ls) ps)
    (hdec : List.Forall₂ (goodDecode u) ps frags)
    (hbadClass : classifyLine bad = LineClass.frame q)
    (hbadDec : ∀ o, ∃ m, u q o = Except.error m) :
    (∃ m, (sendStreamRequest parse u code (ls ++ bad :: rest)).error =
        some (GoError.invalidStreamData m)) ∧
      firstText (sendStreamRequest parse u code (ls ++ bad :: rest)).output =
        concatAll frags ∧
      (sendStreamRequest parse u code (ls ++ bad :: rest)).events.length = ps.length := by
  have hcond : ¬ (code < httpStatusOK ∨ httpStatusBadRequest ≤ code) := fun h =>
    h.elim (fun h1 => absurd hc1 (not_le.mpr h1)) (fun h2 => absurd hc2 (not_lt.mpr h2))
  obtain ⟨out2, prev2, evs, heq, hmap, hlen, hcar, hnil, hne⟩ :=
    streamLoop_frames u hclass hdec (bad :: dropSkips rest) zeroResponse ""
  obtain ⟨m, hm⟩ := hbadDec out2
  have hres : sendStreamRequest parse u code (ls ++ bad :: rest) =
      ⟨out2, evs, some (.invalidStreamData m)⟩ := by
    unfold sendStreamRequest
    rw [if_neg hcond, ← streamLoop_dropSkips u (ls ++ bad :: rest) zeroResponse "",
      dropSkips_append, dropSkips_cons_of_ne bad rest (by simp [isSkip, hbadClass]), heq,
      streamLoop_frame_err u bad (dropSkips rest) out2 prev2 q m hbadClass hm]
    simp
  rw [hres]
  refine ⟨⟨m, rfl⟩, ?_, ?_⟩
  · exact final_firstText ps frags out2 prev2 hdec.length_eq hcar hnil hne
  · show evs.length = ps.length
    rw [hlen, hdec.length_eq]

/-- Witness for C2: a good frame, then a frame that fails to decode, then the
sentinel; the result keeps only the first frame's text and one callback was
made. -/
theorem stream_decode_error_keeps_prior_witness :
    firstText (sendStreamRequest (fun _ => none) uTest 200
        ["data: one", "data: bad", "data: [DONE]"]).output = concatAll ["Hello"] ∧
      (sendStreamRequest (fun _ => none) uTest 200
        ["data: one", "data: bad", "data: [DONE]"]).events.length = 1 := by
  have h := stream_decode_error_keeps_prior (fun _ => none) uTest 200 (by decide) (by decide)
    ["data: one"] ["one"] ["Hello"] "data: bad" "bad" ["data: [DONE]"]
    (List.Forall₂.cons (by decide) List.Forall₂.nil)
    (List.Forall₂.cons (fun _ => ⟨⟨[⟨"Hello"⟩]⟩, rfl, by decide, rfl⟩) List.Forall₂.nil)
    (by decide)
    (fun _ => ⟨"unexpected end of JSON input", rfl⟩)
  exact ⟨h.2.1, h.2.2⟩

/-- C3: For every successfully terminated stream with N accepted data frames,
the `onData` callback is invoked exactly N times, once per accepted data
frame, in arrival order, and the k-th invocation receives an accumulated
result whose first-choice text is the concatenation of the first k frames'
text fragments (monotonically growing, never shrinking or reordering). -/
theorem stream_callback_cumulative
    (parse : List String → Option ErrorResponse)
    (u : String → CompletionResponse → Except String CompletionResponse)
    (code : Nat) (hc1 : httpStatusOK ≤ code) (hc2 : code < httpStatusBadRequest)
    (ls ps frags : List String) (dl : String) (rest : List String)
    (hclass : List.Forall₂ (fun l p => classifyLine l = LineClass.frame p) (dropSkips ls) ps)
    (hdec : List.Forall₂ (goodDecode u) ps frags)
    (hdone : classifyLine dl = LineClass.done) :
    (sendStreamRequest parse u code (ls ++ dl :: rest)).error = none ∧
      (sendStreamRequest parse u code (ls ++ dl :: rest)).events.length = ps.length ∧
      ∀ (k : Nat) (hk : k < (sendStreamRequest parse u code (ls ++ dl :: rest)).events.length),
        firstText ((sendStreamRequest parse u code (ls ++ dl :: rest)).events.get ⟨k, hk⟩) =
          concatAll (frags.take (k + 1)) := by
  have hcond : ¬ (code < httpStatusOK ∨ httpStatusBadRequest ≤ code) := fun h =>
    h.elim (fun h1 => absurd hc1 (not_le.mpr h1)) (fun h2 => absurd hc2 (not_lt.mpr h2))
  obtain ⟨out2, prev2, evs, heq, hmap, hlen, hcar, hnil, hne⟩ :=
    streamLoop_frames u hclass hdec (dl :: dropSkips rest) zeroResponse ""
  have hres : sendStreamRequest parse u code (ls ++ dl :: rest) = ⟨out2, evs, none⟩ := by
    unfold sendStreamRequest
    rw [if_neg hcond, ← streamLoop_dropSkips u (ls ++ dl :: rest) zeroResponse "",
      dropSkips_append, dropSkips_cons_of_ne dl rest (by simp [isSkip, hdone]), heq,
      streamLoop_done u dl (dropSkips rest) out2 prev2 hdone]
    simp
  rw [hres]
  refine ⟨rfl, ?_, ?_⟩
  · show evs.length = ps.length
    rw [hlen, hdec.length_eq]
  · intro k hk
    have h2 : evs.map firstText = cumTexts "" frags := by
      rw [hmap, carried_zero]
    have h3 := get_of_map_eq_cumTexts evs frags "" h2 k hk
    rw [String.empty_append] at h3
    exact h3

/-- Witness for C3: with a blank line interleaved and a line after the
sentinel, the callback is still invoked exactly twice. -/
theorem stream_callback_cumulative_witness :
    (sendStreamRequest (fun _ => none) uTest 200
        ["", "data: one", "data: two", "data: [DONE]", "ignored"]).error = none ∧
      (sendStreamRequest (fun _ => none) uTest 200
        ["", "data: one", "data: two", "data: [DONE]", "ignored"]).events.length = 2 := by
  have h := stream_callback_cumulative (fun _ => none) uTest 200 (by decide) (by decide)
    ["", "data: one", "data: two"] ["one", "two"] ["Hello", ", world"]
    "data: [DONE]" ["ignored"]
    (List.Forall₂.cons (by decide) (List.Forall₂.cons (by decide) List.Forall₂.nil))
    (List.Forall₂.cons (fun _ => ⟨⟨[⟨"Hello"⟩]⟩, rfl, by decide, rfl⟩)
      (List.Forall₂.cons (fun _ => ⟨⟨[⟨", world"⟩]⟩, rfl, by decide, rfl⟩) List.Forall₂.nil))
    (by decide)
  exact ⟨h.1, h.2.1⟩

/-- C4: For every stream whose body ends before a sentinel line is seen,
`sendStreamRequest` returns a non-nil error rather than success, even if zero
or more valid data frames were accumulated and delivered to the callback
before the end. -/
theorem stream_eof_error
    (parse : List String → Option ErrorResponse)
    (u : String → CompletionResponse → Except String CompletionResponse)
    (code : Nat) (hc1 : httpStatusOK ≤ code) (hc2 : code < httpStatusBadRequest)
    (ls : List String)
    (hnd : ∀ l ∈ ls, classifyLine l ≠ LineClass.done)
    (hok : ∀ l p, l ∈ ls → classifyLine l = LineClass.frame p →
      ∀ o, ∃ r, u p o = Except.ok r) :
    (sendStreamRequest parse u code ls).error = some (GoError.readErr "EOF") := by
  have hcond : ¬ (code < httpStatusOK ∨ httpStatusBadRequest ≤ code) := fun h =>
    h.elim (fun h1 => absurd hc1 (not_le.mpr h1)) (fun h2 => absurd hc2 (not_lt.mpr h2))
  unfold sendStreamRequest
  rw [if_neg hcond]
  exact streamLoop_no_done_eof u ls zeroResponse "" hnd hok

/-- Witness for C4: one valid data frame and then the body ends with no
sentinel; the call fails with the propagated end-of-stream error. -/
theorem stream_eof_error_witness :
    (sendStreamRequest (fun _ => none) uTest 200 ["data: one"]).error =
      some (GoError.readErr "EOF") := by
  apply stream_eof_error (fun _ => none) uTest 200 (by decide) (by decide) ["data: one"]
  · decide
  · intro l p hl hc o
    have hl2 : l = "data: one" := by simpa using hl
    subst hl2
    have h3 : classifyLine "data: one" = LineClass.frame "one" := by decide
    rw [h3] at hc
    injection hc with hp
    subst hp
    exact ⟨⟨[⟨"Hello"⟩]⟩, rfl⟩

/-- The error decoder always produces one of the two HTTP-status errors. -/
lemma decodeErrorResponse_isStatus {α : Type} (parse : α → Option ErrorResponse)
    (code : Nat) (body : α) :
    (decodeErrorResponse parse code body).isStatus = true := by
  unfold decodeErrorResponse
  cases parse body with
  | none => rfl
  | some er =>
    cases er with
    | mk oe =>
      cases oe with
      | none => rfl
      | some e => rfl

/-- In the success range the unary call never returns an HTTP-status error. -/
lemma sendRequest_success_no_status (pu : String → Option ErrorResponse)
    (dec : Option (String → Except String Unit)) (code : Nat) (bodyU : String)
    (hc : ¬ (code < httpStatusOK ∨ httpStatusBadRequest ≤ code)) (e : GoError)
    (he : sendRequest pu dec code bodyU = some e) : e.isStatus = false := by
  unfold sendRequest at he
  rw [if_neg hc] at he
  cases dec with
  | none => cases he
  | some d =>
    have he2 : (match d bodyU with
        | Except.error msg => some (GoError.unaryDecodeErr msg)
        | Except.ok _ => (none : Option GoError)) = some e := he
    revert he2
    cases hd : d bodyU with
    | error m =>
      intro he2
      injection he2 with h
      rw [← h]
      rfl
    | ok v =>
      intro he2
      cases he2

/-- In the success range the streaming call never returns an HTTP-status
error. -/
lemma sendStreamRequest_success_no_status (psE : List String → Option ErrorResponse)
    (u : String → CompletionResponse → Except String CompletionResponse)
    (code : Nat) (bodyS : List String)
    (hc : ¬ (code < httpStatusOK ∨ httpStatusBadRequest ≤ code)) (e : GoError)
    (he : (sendStreamRequest psE u code bodyS).error = some e) : e.isStatus = false := by
  unfold sendStreamRequest at he
  rw [if_neg hc] at he
  exact streamLoop_error_not_status u bodyS zeroResponse "" e he

/-- C5: For every response with a failing HTTP status: if the body parses as a
structured error envelope whose nested error object is present, the returned
error carries both the status code and that exact message string; if parsing
fails or the nested error object is absent, the returned error carries only
the status code; and every call on this path yields an error, never success
(both for `sendRequest` and for `sendStreamRequest`). -/
theorem failing_status_error_payload
    (pu : String → Option ErrorResponse) (psE : List String → Option ErrorResponse)
    (dec : Option (String → Except String Unit))
    (u : String → CompletionResponse → Except String CompletionResponse)
    (code : Nat) (bodyU : String) (bodyS : List String)
    (hcode : code < httpStatusOK ∨ httpStatusBadRequest ≤ code) :
    (∃ e, sendRequest pu dec code bodyU = some e) ∧
      (∃ e, (sendStreamRequest psE u code bodyS).error = some e) ∧
      (∀ er e, pu bodyU = some er → er.error = some e →
        sendRequest pu dec code bodyU = some (GoError.statusMsg code e.message)) ∧
      (pu bodyU = none →
        sendRequest pu dec code bodyU = some (GoError.statusOnly code)) ∧
      (∀ er, pu bodyU = some er → er.error = none →
        sendRequest pu dec code bodyU = some (GoError.statusOnly code)) ∧
      (∀ er e, psE bodyS = some er → er.error = some e →
        (sendStreamRequest psE u code bodyS).error = some (GoError.statusMsg code e.message)) ∧
      (psE bodyS = none →
        (sendStreamRequest psE u code bodyS).error = some (GoError.statusOnly code)) ∧
      (∀ er, psE bodyS = some er → er.error = none →
        (sendStreamRequest psE u code bodyS).error = some (GoError.statusOnly code)) := by
  have hunary : sendRequest pu dec code bodyU = some (decodeErrorResponse pu code bodyU) := by
    unfold sendRequest
    rw [if_pos hcode]
  have hstream : (sendStreamRequest psE u code bodyS).error =
      some (decodeErrorResponse psE code bodyS) := by
    unfold sendStreamRequest
    rw [if_pos hcode]
  refine ⟨⟨decodeErrorResponse pu code bodyU, hunary⟩,
    ⟨decodeErrorResponse psE code bodyS, hstream⟩, ?_, ?_, ?_, ?_, ?_, ?_⟩
  · intro er e h1 h2
    rw [hunary]
    simp [decodeErrorResponse, h1, h2]
  · intro h1
    rw [hunary]
    simp [decodeErrorResponse, h1]
  · intro er h1 h2
    rw [hunary]
    simp [decodeErrorResponse, h1, h2]
  · intro er e h1 h2
    rw [hstream]
    simp [decodeErrorResponse, h1, h2]
  · intro h1
    rw [hstream]
    simp [decodeErrorResponse, h1]
  · intro er h1 h2
    rw [hstream]
    simp [decodeErrorResponse, h1, h2]

/-- Witness for C5: the spec's two concrete scenarios — a 429 whose body
parses to the message `rate limited` and a 500 whose body does not parse. -/
theorem failing_status_error_payload_witness :
    sendRequest parseRateLimited none 429 "" = some (GoError.statusMsg 429 "rate limited") ∧
      sendRequest parseFails none 500 "" = some (GoError.statusOnly 500) := by
  have h1 := failing_status_error_payload parseRateLimited parseRateLimited none uTest
    429 "" [] (by decide)
  have h2 := failing_status_error_payload parseFails parseFails none uTest
    500 "" [] (by decide)
  exact ⟨h1.2.2.1 ⟨some ⟨"rate limited"⟩⟩ ⟨"rate limited"⟩ rfl rfl, h2.2.2.2.1 rfl⟩

/-- C6: For every response, `sendRequest` classifies a status code as success
exactly when it lies in the half-open range [200,400); every status outside
that range, including codes below 200, is treated as an error and routed to
error decoding (so an HTTP-status error is produced exactly outside the
range, for both `sendRequest` and `sendStreamRequest`). -/
theorem status_range_classification
    (pu : String → Option ErrorResponse) (psE : List String → Option ErrorResponse)
    (dec : Option (String → Except String Unit))
    (u : String → CompletionResponse → Except String CompletionResponse)
    (code : Nat) (bodyU : String) (bodyS : List String) :
    ((∃ e, sendRequest pu dec code bodyU = some e ∧ e.isStatus = true) ↔
        ¬ (httpStatusOK ≤ code ∧ code < httpStatusBadRequest)) ∧
      ((∃ e, (sendStreamRequest psE u code bodyS).error = some e ∧ e.isStatus = true) ↔
        ¬ (httpStatusOK ≤ code ∧ code < httpStatusBadRequest)) := by
  by_cases hc : code < httpStatusOK ∨ httpStatusBadRequest ≤ code
  · have hnot : ¬ (httpStatusOK ≤ code ∧ code < httpStatusBadRequest) := fun hin =>
      hc.elim (fun h => absurd hin.1 (not_le.mpr h)) (fun h => absurd hin.2 (not_lt.mpr h))
    constructor
    · refine ⟨fun _ => hnot, fun _ => ⟨decodeErrorResponse pu code bodyU, ?_, ?_⟩⟩
      · unfold sendRequest
        rw [if_pos hc]
      · exact decodeErrorResponse_isStatus pu code bodyU
    · refine ⟨fun _ => hnot, fun _ => ⟨decodeErrorResponse psE code bodyS, ?_, ?_⟩⟩
      · unfold sendStreamRequest
        rw [if_pos hc]
      · exact decodeErrorResponse_isStatus psE code bodyS
  · have hyes : httpStatusOK ≤ code ∧ code < httpStatusBadRequest := by
      have h1 : ¬ code < httpStatusOK := fun h => hc (Or.inl h)
      have h2 : ¬ httpStatusBadRequest ≤ code := fun h => hc (Or.inr h)
      exact ⟨not_lt.mp h1, not_le.mp h2⟩
    constructor
    · constructor
      · rintro ⟨e, he, hst⟩ _
        have hf := sendRequest_success_no_status pu dec code bodyU hc e he
        rw [hf] at hst
        exact Bool.noConfusion hst
      · intro hn
        exact absurd hyes hn
    · constructor
      · rintro ⟨e, he, hst⟩ _
        have hf := sendStreamRequest_success_no_status psE u code bodyS hc e he
        rw [hf] at hst
        exact Bool.noConfusion hst
      · intro hn
        exact absurd hyes hn

/-- C7: The streaming loop exits successfully exactly when, after stripping
the data prefix and trimming, the remaining line content begins with the
fixed termination token; this sentinel check is the only success exit of the
loop. -/
theorem sentinel_only_success_exit
    (u : String → CompletionResponse → Except String CompletionResponse) :
    (∀ (l : String) (rest : List String) (out : CompletionResponse) (prev : String),
        hasPfx (trimSpace l) dataPrefix = true →
        hasPfx (trimSpace (trimPfx (trimSpace l) dataPrefix)) doneSequence = true →
        streamLoop u (l :: rest) out prev = ⟨out, [], none⟩) ∧
      ∀ (ls : List String) (out : CompletionResponse) (prev : String),
        (streamLoop u ls out prev).error = none →
        ∃ l ∈ ls, hasPfx (trimSpace l) dataPrefix = true ∧
          hasPfx (trimSpace (trimPfx (trimSpace l) dataPrefix)) doneSequence = true := by
  constructor
  · intro l rest out prev h1 h2
    exact streamLoop_done u l rest out prev ((classify_done_iff l).mpr ⟨h1, h2⟩)
  · intro ls
    induction ls with
    | nil =>
      intro out prev he
      rw [streamLoop_nil] at he
      cases he
    | cons l ls ih =>
      intro out prev he
      cases h : classifyLine l with
      | skip =>
        rw [streamLoop_skip u l ls out prev h] at he
        obtain ⟨x, hx, h1, h2⟩ := ih out prev he
        exact ⟨x, List.mem_cons_of_mem l hx, h1, h2⟩
      | done =>
        obtain ⟨h1, h2⟩ := (classify_done_iff l).mp h
        exact ⟨l, List.mem_cons_self l ls, h1, h2⟩
      | frame p =>
        cases hu : u p out with
        | error m =>
          rw [streamLoop_frame_err u l ls out prev p m h hu] at he
          cases he
        | ok r =>
          simp only [streamLoop, h, hu] at he
          obtain ⟨x, hx, h1, h2⟩ := ih _ _ he
          exact ⟨x, List.mem_cons_of_mem l hx, h1, h2⟩

/-- Witness for C7: a line carrying the literal sentinel payload stops the
loop at once with a nil error, whatever follows. -/
theorem sentinel_only_success_exit_witness :
    streamLoop uTest ["data: [DONE]"] zeroResponse "" = ⟨zeroResponse, [], none⟩ :=
  (sentinel_only_success_exit uTest).1 "data: [DONE]" [] zeroResponse ""
    (by decide) (by decide)

/-- C8: For every line of the stream body that, after trimming, does not
begin with the event-data prefix (blank lines, comments, other event types),
the line is silently skipped: the callback is not invoked for it and the
accumulated text is unchanged (the loop continues on the rest of the body
with identical state). -/
theorem non_data_line_skipped
    (u : String → CompletionResponse → Except String CompletionResponse)
    (l : String) (rest : List String) (out : CompletionResponse) (prev : String)
    (h : hasPfx (trimSpace l) dataPrefix = false) :
    streamLoop u (l :: rest) out prev = streamLoop u rest out prev :=
  streamLoop_skip u l rest out prev ((classify_skip_iff l).mpr h)

/-- Witness for C8: a blank line is invisible to the loop. -/
theorem non_data_line_skipped_witness :
    streamLoop uTest ["", "data: one"] zeroResponse "" =
      streamLoop uTest ["data: one"] zeroResponse "" :=
  non_data_line_skipped uTest "" ["data: one"] zeroResponse "" (by decide)

/-- C9: For every streaming call whose HTTP response has a failing status
(outside [200,400)), `sendStreamRequest` returns the zero-value
`CompletionResponse` (no choices) alongside the error produced by the error
decoder: no frame is merged and the callback is never invoked on this path. -/
theorem stream_failing_status_zero_output
    (parse : List String → Option ErrorResponse)
    (u : String → CompletionResponse → Except String CompletionResponse)
    (code : Nat) (body : List String)
    (hcode : code < httpStatusOK ∨ httpStatusBadRequest ≤ code) :
    (sendStreamRequest parse u code body).output = zeroResponse ∧
      (sendStreamRequest parse u code body).events = [] ∧
      (sendStreamRequest parse u code body).error =
        some (decodeErrorResponse parse code body) := by
  unfold sendStreamRequest
  rw [if_pos hcode]
  exact ⟨rfl, rfl, rfl⟩

/-- Witness for C9: a 429 streaming response with a parsable error body
yields the zero output, no callback invocation, and the decoded error. -/
theorem stream_failing_status_zero_output_witness :
    (sendStreamRequest parseRateLimited uTest 429 ["data: one"]).output = zeroResponse ∧
      (sendStreamRequest parseRateLimited uTest 429 ["data: one"]).events = [] ∧
      (sendStreamRequest parseRateLimited uTest 429 ["data: one"]).error =
        some (decodeErrorResponse parseRateLimited 429 ["data: one"]) :=
  stream_failing_status_zero_output parseRateLimited uTest 429 ["data: one"] (by decide)

/-- C10: The fixed event-data prefix is the six-byte sequence `data: `
including one trailing space: every line that after trimming begins with
`data:` but is not followed by a space character is treated as ignorable and
skipped rather than decoded as a frame or checked for the sentinel. -/
theorem data_tag_requires_space :
    dataPrefix.data = ['d', 'a', 't', 'a', ':', ' '] ∧
      dataPrefix.utf8ByteSize = 6 ∧
      ∀ (u : String → CompletionResponse → Except String CompletionResponse)
        (l : String) (rest : List String) (out : CompletionResponse) (prev : String),
        hasPfx (trimSpace l) "data:" = true →
        hasPfx (trimSpace l) dataPrefix = false →
        classifyLine l = LineClass.skip ∧
          streamLoop u (l :: rest) out prev = streamLoop u rest out prev := by
  refine ⟨by decide, by decide, ?_⟩
  intro u l rest out prev _ h2
  have hs : classifyLine l = LineClass.skip := (classify_skip_iff l).mpr h2
  exact ⟨hs, streamLoop_skip u l rest out prev hs⟩

/-- Witness for C10: the line `data:[DONE]` (no space after the colon) is
skipped — in particular it does not terminate the stream. -/
theorem data_tag_requires_space_witness :
    classifyLine "data:[DONE]" = LineClass.skip ∧
      streamLoop uTest ["data:[DONE]"] zeroResponse "" =
        streamLoop uTest [] zeroResponse "" :=
  data_tag_requires_space.2.2 uTest "data:[DONE]" [] zeroResponse ""
    (by decide) (by decide)

end GoGpt
